import Mathlib

/-!
# Verification of the mcp-proxy gateway core

A shallow embedding, in Lean 4, of the pure logic of the `mcp-proxy`
repository: the configuration model and loader (`config.go`), the backend
client initialization and capability registration (`client.go`), and the
HTTP middleware chain and route construction (`http.go`).

Go strings are modelled as `List Char`; Go `nil` pointers and `nil` slices
as `Option`; Go's `optional.Field[bool]` three-state booleans as
`Option Bool`; fallible Go functions as `Except`.  Side effects that the
claims mention (log lines, HTTP responses, panics) are made explicit in the
result types.  Network and process I/O is out of scope: backends are
modelled as response functions handed to the embedded code.
-/

set_option linter.unusedVariables false

deriving instance DecidableEq for Except

namespace MCPProxy

/-- Go strings, modelled as lists of characters. -/
abbrev Str := List Char

/-- Conversion from Lean string literals to the Go-string model. -/
def gs (s : String) : Str := s.data

/-- Go `strings.HasPrefix s pattern`. -/
def goStartsWith : Str → Str → Bool
  | _, [] => true
  | [], _ :: _ => false
  | c :: cs, p :: ps => c == p && goStartsWith cs ps

/-- Go `strings.HasSuffix s pattern`. -/
def goEndsWith (s pattern : Str) : Bool :=
  goStartsWith s.reverse pattern.reverse

/-- Go `strings.TrimPrefix s pattern`: drop the pattern when it leads `s`,
otherwise return `s` unchanged. -/
def goTrimPre (s pattern : Str) : Str :=
  if goStartsWith s pattern then s.drop pattern.length else s

/-- Go `strings.TrimSpace` (restricted to ASCII whitespace, which is all the
claims exercise). -/
def goTrimSpace (s : Str) : Str :=
  ((s.dropWhile Char.isWhitespace).reverse.dropWhile Char.isWhitespace).reverse

/-- Go `strings.ToLower` (ASCII). -/
def goToLower (s : Str) : Str := s.map Char.toLower

/-! ## Configuration data model (`config.go`) -/

/-- `MCPClientType` constant `"stdio"`. -/
def MCPClientTypeStdio : Str := gs "stdio"

/-- `MCPClientType` constant `"sse"`. -/
def MCPClientTypeSSE : Str := gs "sse"

/-- `MCPClientType` constant `"streamable-http"`. -/
def MCPClientTypeStreamable : Str := gs "streamable-http"

/-- `ToolFilterMode` constant `"allow"`. -/
def ToolFilterModeAllow : Str := gs "allow"

/-- `ToolFilterMode` constant `"block"`. -/
def ToolFilterModeBlock : Str := gs "block"

/-- `ToolFilterConfig`: filter mode plus tool-name list. -/
structure ToolFilterConfig where
  mode : Str := []
  list : List Str := []
  deriving DecidableEq, Repr

/-- `Options`: common options of the proxy and of each backend.
`optional.Field[bool]` is a three-state boolean, modelled as `Option Bool`;
the Go `AuthTokens []string` slice distinguishes `nil` (absent) from an
empty slice, modelled as `Option (List Str)`; the `*ToolFilterConfig`
pointer is an `Option`. -/
structure Options where
  panicIfInvalid : Option Bool := none
  logEnabled : Option Bool := none
  authTokens : Option (List Str) := none
  toolFilter : Option ToolFilterConfig := none
  deriving DecidableEq, Repr

/-- `MCPProxyConfig`: the proxy section of the configuration. -/
structure MCPProxyConfig where
  baseURL : Str := []
  addr : Str := []
  name : Str := []
  version : Str := []
  options : Option Options := none
  deriving DecidableEq, Repr

/-- `MCPClientConfig`: the flat per-backend configuration record from which
the transport variant is inferred. -/
structure MCPClientConfig where
  transportType : Str := []
  command : Str := []
  args : List Str := []
  env : List (Str × Str) := []
  url : Str := []
  headers : List (Str × Str) := []
  timeout : Nat := 0
  options : Option Options := none
  deriving DecidableEq, Repr

/-- `StdioMCPClientConfig`: resolved stdio-transport configuration. -/
structure StdioMCPClientConfig where
  command : Str
  env : List (Str × Str)
  args : List Str
  deriving DecidableEq, Repr

/-- `SSEMCPClientConfig`: resolved SSE-transport configuration. -/
structure SSEMCPClientConfig where
  url : Str
  headers : List (Str × Str)
  deriving DecidableEq, Repr

/-- `StreamableMCPClientConfig`: resolved streamable-HTTP configuration. -/
structure StreamableMCPClientConfig where
  url : Str
  headers : List (Str × Str)
  timeout : Nat
  deriving DecidableEq, Repr

/-- The three possible successful results of `parseMCPClientConfig`
(returned as `any` in Go). -/
inductive ParsedClientConfig where
  | stdio (c : StdioMCPClientConfig)
  | sse (c : SSEMCPClientConfig)
  | streamable (c : StreamableMCPClientConfig)
  deriving DecidableEq, Repr

/-- `parseMCPClientConfig` (config.go): infer the transport variant from the
populated fields of a backend configuration record. -/
def parseMCPClientConfig (conf : MCPClientConfig) : Except Str ParsedClientConfig :=
  if conf.command ≠ [] ∨ conf.transportType = MCPClientTypeStdio then
    if conf.command = [] then
      .error (gs "command is required for stdio transport")
    else
      .ok (.stdio ⟨conf.command, conf.env, conf.args⟩)
  else if conf.url ≠ [] then
    if conf.transportType = MCPClientTypeStreamable then
      .ok (.streamable ⟨conf.url, conf.headers, conf.timeout⟩)
    else
      .ok (.sse ⟨conf.url, conf.headers⟩)
  else
    .error (gs "invalid server type")

/-- `Config`: the whole configuration document.  The backend map is kept as
an association list (Go map iteration order is irrelevant to the claims). -/
structure Config where
  mcpProxy : Option MCPProxyConfig := none
  mcpServers : List (Str × MCPClientConfig) := []
  deriving DecidableEq, Repr

/-- The body of the backend loop of `load` (config.go): materialize empty
options when the backend has none (`Options == nil` is `none`, `getD {}`
is the `&Options{}` default), then inherit the proxy-level `authTokens`
when the backend slice is nil, and the proxy-level `panicIfInvalid` and
`logEnabled` when the backend's three-state field is not `Present()`. -/
def inheritClient (proxyOptions : Options) (clientConfig : MCPClientConfig) :
    MCPClientConfig :=
  let o : Options := clientConfig.options.getD {}
  let o := if o.authTokens = none then
      { o with authTokens := proxyOptions.authTokens } else o
  let o := if o.panicIfInvalid.isSome then o else
      { o with panicIfInvalid := proxyOptions.panicIfInvalid }
  let o := if o.logEnabled.isSome then o else
      { o with logEnabled := proxyOptions.logEnabled }
  { clientConfig with options := some o }

/-- `load` (config.go), its pure tail: everything after `confstore.Load`
has produced a parsed `Config`.  Rejects a missing proxy section,
materializes empty proxy options, and rewrites every backend with
`inheritClient`. -/
def load (conf : Config) : Except Str Config :=
  match conf.mcpProxy with
  | none => .error (gs "mcpProxy is required")
  | some proxy =>
    let proxyOptions : Options := proxy.options.getD {}
    .ok { mcpProxy := some { proxy with options := some proxyOptions },
          mcpServers :=
            conf.mcpServers.map fun nc => (nc.1, inheritClient proxyOptions nc.2) }

/-! ## Go standard library `path.Clean` and `path.Join`

`startHTTPServer` builds each route with `path.Join(baseURL.Path, name)`.
`path.Join` concatenates the non-empty elements with `/` and runs
`path.Clean` over the result; `Clean` is the lexical cleanup loop of the
Go `path` package, translated here with an explicit fuel argument in place
of Go's unbounded loop (each iteration consumes at least one input
character, so fuel equal to the input length always suffices and is what
`pathClean` passes). -/

/-- The backtracking step of Go `path.Clean` for a `..` element: starting
from width `w`, shrink the output buffer while the character at the width
index is not a separator and the width exceeds the `dotdot` watermark. -/
def cleanShrink (out : List Char) (dotdot : Nat) : Nat → List Char
  | 0 => []
  | w + 1 =>
    if dotdot < w + 1 ∧ out.getD (w + 1) '/' ≠ '/' then
      cleanShrink out dotdot w
    else
      out.take (w + 1)

/-- The main loop of Go `path.Clean`: `s` is the unread input, `out` the
output buffer, `dotdot` the backtracking watermark. -/
def cleanLoop (rooted : Bool) : Nat → Str → List Char → Nat → List Char
  | 0, _, out, _ => out
  | fuel + 1, s, out, dotdot =>
    match s with
    | [] => out
    | c :: rest =>
      if c = '/' then
        cleanLoop rooted fuel rest out dotdot
      else if c = '.' ∧ (rest = [] ∨ rest.head? = some '/') then
        cleanLoop rooted fuel rest out dotdot
      else if c = '.' ∧ rest.head? = some '.' ∧
          (rest.tail = [] ∨ rest.tail.head? = some '/') then
        if dotdot < out.length then
          cleanLoop rooted fuel rest.tail
            (cleanShrink out dotdot (out.length - 1)) dotdot
        else if rooted = false then
          let out2 := (if 0 < out.length then out ++ ['/'] else out) ++ ['.', '.']
          cleanLoop rooted fuel rest.tail out2 out2.length
        else
          cleanLoop rooted fuel rest.tail out dotdot
      else
        let out2 :=
          if (rooted = true ∧ out.length ≠ 1) ∨ (rooted = false ∧ out.length ≠ 0) then
            out ++ ['/']
          else out
        cleanLoop rooted fuel (rest.dropWhile (fun ch => ch ≠ '/'))
          (out2 ++ (c :: rest.takeWhile (fun ch => ch ≠ '/'))) dotdot

/-- Go `path.Clean`. -/
def pathClean (p : Str) : Str :=
  if p = [] then gs "."
  else
    let out :=
      if p.head? = some '/' then cleanLoop true p.length (p.drop 1) ['/'] 1
      else cleanLoop false p.length p [] 0
    if out.length = 0 then gs "." else out

/-- Go `path.Join`: drop empty elements, interleave `/`, `Clean` the result;
all-empty input yields the empty string. -/
def pathJoin (elem : List Str) : Str :=
  if (elem.map List.length).sum = 0 then []
  else
    pathClean (elem.foldl (fun buf e =>
      if 0 < buf.length ∨ e ≠ [] then
        (if 0 < buf.length then buf ++ ['/'] else buf) ++ e
      else buf) [])

/-- The route computation of `startHTTPServer` (http.go):
`path.Join(baseURL.Path, name)`, then prepend a `/` when the result does
not start with one, then append a `/` when it does not end with one. -/
def mcpRoute (basePath name : Str) : Str :=
  let route := pathJoin [basePath, name]
  let route := if goStartsWith route (gs "/") then route else gs "/" ++ route
  let route := if goEndsWith route (gs "/") then route else route ++ gs "/"
  route

example : pathClean (gs "a/b/../c") = gs "a/c" := by decide
example : pathClean (gs "") = gs "." := by decide
example : pathClean (gs "/../x//y/./") = gs "/x/y" := by decide
example : pathJoin [gs "", gs "github"] = gs "github" := by decide
example : pathJoin [gs "", gs ""] = gs "" := by decide
example : mcpRoute (gs "") (gs "github") = gs "/github/" := by decide
example : mcpRoute (gs "/api/") (gs "x") = gs "/api/x/" := by decide
example : mcpRoute (gs "") (gs "") = gs "/" := by decide

/-! ## HTTP handlers and the middleware chain (http.go)

A Go `http.Handler` is modelled as a pure function from the request to a
result that records the written response (or an escaping panic) together
with the `log.Printf` lines emitted while handling the request, in order. -/

/-- An HTTP request, reduced to the fields the embedded code reads.
`authorization` is the value of `r.Header.Get("Authorization")`, which in
Go is the empty string when the header is absent. -/
structure Request where
  authorization : Str := []
  method : Str := []
  path : Str := []
  deriving DecidableEq, Repr

/-- What a handler did: wrote a response, or panicked out of the handler. -/
inductive HandlerOutcome where
  | response (status : Nat) (body : Str)
  | panicked (msg : Str)
  deriving DecidableEq, Repr

/-- Outcome of a handler plus the log lines it printed, in order. -/
structure HandlerResult where
  outcome : HandlerOutcome
  logLines : List Str := []
  deriving DecidableEq, Repr

/-- `http.Handler`. -/
abbrev Handler := Request → HandlerResult

/-- `MiddlewareFunc` (http.go). -/
abbrev Middleware := Handler → Handler

/-- `chainMiddleware` (http.go): `for _, mw := range middlewares { h = mw(h) }`,
i.e. a left fold that applies each middleware to the handler built so far. -/
def chainMiddleware (h : Handler) (middlewares : List Middleware) : Handler :=
  middlewares.foldl (fun h mw => mw h) h

/-- The 401 response written by `http.Error(w, "Unauthorized",
http.StatusUnauthorized)` in the auth middleware. -/
def unauthorizedResult : HandlerResult :=
  { outcome := .response 401 (gs "Unauthorized") }

/-- `newAuthMiddleware` (http.go): when the token list is non-empty, take
the `Authorization` header value, strip a `"Bearer "` prefix when present,
trim whitespace, and reject with 401 when the result is empty or not in
the token set; otherwise (and whenever the token list is empty) invoke the
wrapped handler. -/
def newAuthMiddleware (tokens : List Str) : Middleware :=
  fun next req =>
    if tokens.length ≠ 0 then
      let token := req.authorization
      let token := goTrimSpace (goTrimPre token (gs "Bearer "))
      if token = [] then unauthorizedResult
      else if tokens.contains token = false then unauthorizedResult
      else next req
    else next req

/-- `loggerMiddleware` (http.go): print one request line, then invoke the
wrapped handler. -/
def loggerMiddleware (name : Str) : Middleware :=
  fun next req =>
    let line := gs "<" ++ name ++ gs "> Request [" ++ req.method ++ gs "] " ++ req.path
    let r := next req
    { r with logLines := line :: r.logLines }

/-- `recoverMiddleware` (http.go): invoke the wrapped handler; when it
panics, log the recovery and write a 500 response instead. -/
def recoverMiddleware (name : Str) : Middleware :=
  fun next req =>
    let r := next req
    match r.outcome with
    | .panicked msg =>
      { outcome := .response 500 (gs "Internal Server Error"),
        logLines := r.logLines ++ [gs "<" ++ name ++ gs "> Recovered from panic: " ++ msg] }
    | _ => r

/-- A symbolic description of one middleware of the per-route chain,
so that the list built by `startHTTPServer` can be inspected. -/
inductive MiddlewareSpec where
  | recover (name : Str)
  | logger (name : Str)
  | auth (tokens : List Str)
  deriving DecidableEq, Repr

/-- Interpretation of a `MiddlewareSpec` as the middleware it names. -/
def MiddlewareSpec.run : MiddlewareSpec → Middleware
  | .recover name => recoverMiddleware name
  | .logger name => loggerMiddleware name
  | .auth tokens => newAuthMiddleware tokens

/-- The per-route middleware list built by `startHTTPServer` (http.go):
start from the empty list, append `recoverMiddleware(name)`, append
`loggerMiddleware(name)` when `LogEnabled.OrElse(false)`, append
`newAuthMiddleware(AuthTokens)` when `len(AuthTokens) > 0`. -/
def buildMiddlewares (name : Str) (options : Options) : List MiddlewareSpec :=
  let middlewares : List MiddlewareSpec := []
  let middlewares := middlewares ++ [.recover name]
  let middlewares :=
    if options.logEnabled.getD false then middlewares ++ [.logger name]
    else middlewares
  let middlewares :=
    if 0 < (options.authTokens.getD []).length then
      middlewares ++ [.auth (options.authTokens.getD [])]
    else middlewares
  middlewares

/-- The handler mounted at a backend's route (http.go):
`chainMiddleware(server.sseServer, middlewares...)`. -/
def mountedHandler (name : Str) (options : Options) (sse : Handler) : Handler :=
  chainMiddleware sse ((buildMiddlewares name options).map MiddlewareSpec.run)

/-- The read `clientConfig.Options.LogEnabled.OrElse(false)` performed by
`newMCPServer` (client.go) and `startHTTPServer` (http.go) through the
`Options` pointer; dereferencing a nil pointer is the `none` case. -/
def readLogEnabled (clientConfig : MCPClientConfig) : Option Bool :=
  match clientConfig.options with
  | none => none
  | some o => some (o.logEnabled.getD false)

/-- The read `clientConfig.Options.PanicIfInvalid.OrElse(false)` performed
by `startHTTPServer` (http.go) through the `Options` pointer. -/
def readPanicIfInvalid (clientConfig : MCPClientConfig) : Option Bool :=
  match clientConfig.options with
  | none => none
  | some o => some (o.panicIfInvalid.getD false)

/-! ## Backend client and capability registration (client.go)

The four paged listing loops of client.go (`addToolsToServer`,
`addPromptsToServer`, `addResourcesToServer`,
`addResourceTemplatesToServer`) have identical control flow and differ
only in the item type and in the filter applied before registration; they
are embedded as one loop, `listPages`, instantiated per family.  The Go
loops are unbounded `for {}` loops; `listPages` takes a fuel argument, and
`LoopExit.outOfFuel` records that the loop was cut off rather than exited
by the code itself.  The backend's RPC surface is a record of response
functions (`BackendIO`). -/

/-- A capability item; only the name is relevant to the embedded logic. -/
structure Tool where
  name : Str
  deriving DecidableEq, Repr

/-- A prompt advertised by a backend. -/
structure Prompt where
  name : Str
  deriving DecidableEq, Repr

/-- A resource advertised by a backend. -/
structure Resource where
  name : Str
  deriving DecidableEq, Repr

/-- A resource template advertised by a backend. -/
structure ResourceTemplate where
  name : Str
  deriving DecidableEq, Repr

/-- One page of a paged list response: the items plus the next cursor
(empty when the backend omits it). -/
structure Page (α : Type) where
  items : List α
  nextCursor : Str := []
  deriving DecidableEq, Repr

/-- How a paged listing loop exited. -/
inductive LoopExit where
  | emptyPage
  | emptyCursor
  | failed (e : Str)
  | outOfFuel
  deriving DecidableEq, Repr

/-- The paged listing loop shared by the four registration functions of
client.go: fetch the page at the cursor (starting from the zero-value
request, i.e. the empty cursor); stop on a fetch error or an empty item
list; otherwise register the items that pass `keep`, stop when the next
cursor is empty, and continue at the returned cursor.  Returns the
registered items in order together with the exit reason. -/
def listPages {α : Type} (fetch : Str → Except Str (Page α)) (keep : α → Bool) :
    Nat → Str → List α × LoopExit
  | 0, _ => ([], .outOfFuel)
  | fuel + 1, cursor =>
    match fetch cursor with
    | .error e => ([], .failed e)
    | .ok page =>
      if page.items.length = 0 then ([], .emptyPage)
      else
        let regs := page.items.filter keep
        if page.nextCursor = [] then (regs, .emptyCursor)
        else
          let r := listPages fetch keep fuel page.nextCursor
          (regs ++ r.1, r.2)

/-- The tool filter function built at the top of `addToolsToServer`
(client.go): the default accepts every tool; when the options are non-nil,
carry a non-nil tool filter, and its list is non-empty, the lowercased
mode selects list membership (`allow`), list non-membership (`block`), or
— for any other mode — again accepts everything. -/
def toolFilterFunc (options : Option Options) : Str → Bool :=
  match options with
  | some o =>
    match o.toolFilter with
    | some tf =>
      if 0 < tf.list.length then
        let mode := goToLower tf.mode
        if mode = ToolFilterModeAllow then
          fun toolName => tf.list.contains toolName
        else if mode = ToolFilterModeBlock then
          fun toolName => !(tf.list.contains toolName)
        else
          fun _ => true
      else fun _ => true
    | none => fun _ => true
  | none => fun _ => true

/-- The log lines printed while building the tool filter function in
`addToolsToServer` (client.go): exactly one warning when a filter with a
non-empty list has a mode that is neither `allow` nor `block`. -/
def toolFilterConstructionLog (name : Str) (options : Option Options) : List Str :=
  match options with
  | some o =>
    match o.toolFilter with
    | some tf =>
      if 0 < tf.list.length then
        let mode := goToLower tf.mode
        if mode = ToolFilterModeAllow then []
        else if mode = ToolFilterModeBlock then []
        else [gs "<" ++ name ++ gs "> Unknown tool filter mode: " ++ mode ++
              gs ", skipping tool filter"]
      else []
    | none => []
  | none => []

/-- `Client` (client.go): per-backend handle with the transport flags and
the effective options. -/
structure Client where
  name : Str
  needPing : Bool := false
  needManualStart : Bool := false
  options : Option Options := none

/-- The backend's RPC surface as seen by `addToMCPServer`: the outcomes of
`Start` and `Initialize`, and one response function per paged list
endpoint. -/
structure BackendIO where
  startResult : Except Str Unit := .ok ()
  initResult : Except Str Unit := .ok ()
  listTools : Str → Except Str (Page Tool) := fun _ => .ok { items := [] }
  listPrompts : Str → Except Str (Page Prompt) := fun _ => .ok { items := [] }
  listResources : Str → Except Str (Page Resource) := fun _ => .ok { items := [] }
  listResourceTemplates : Str → Except Str (Page ResourceTemplate) :=
    fun _ => .ok { items := [] }

/-- `newMCPClient` (client.go): resolve the transport variant and build the
client handle; SSE and streamable-HTTP clients need a manual start and
periodic pings, stdio clients need neither. -/
def newMCPClient (name : Str) (conf : MCPClientConfig) : Except Str Client :=
  match parseMCPClientConfig conf with
  | .error e => .error e
  | .ok (.stdio _) => .ok { name := name, options := conf.options }
  | .ok (.sse _) =>
    .ok { name := name, needPing := true, needManualStart := true,
          options := conf.options }
  | .ok (.streamable _) =>
    .ok { name := name, needPing := true, needManualStart := true,
          options := conf.options }

/-- `addToolsToServer` (client.go): run the paged tools loop with the tool
filter; a fetch error aborts the backend, otherwise the registered tools
are returned. -/
def addToolsToServer (c : Client) (io : BackendIO) (fuel : Nat) :
    Except Str (List Tool) :=
  match listPages io.listTools (fun t => toolFilterFunc c.options t.name) fuel [] with
  | (_, .failed e) => .error e
  | (regs, _) => .ok regs

/-- Everything `addToMCPServer` registered on the per-backend MCP server,
plus whether the ping task was forked. -/
structure Registrations where
  tools : List Tool := []
  prompts : List Prompt := []
  resources : List Resource := []
  resourceTemplates : List ResourceTemplate := []
  pingStarted : Bool := false
  deriving DecidableEq, Repr

/-- `addToMCPServer` (client.go): manual start when the transport requires
it, the `Initialize` RPC, then tools registration — each of these three
propagates its error.  Prompts, resources, and resource templates are
registered best-effort: their loops run, whatever was registered before a
failure is kept, and the error is discarded.  Finally the ping task is
forked when the transport needs pings. -/
def addToMCPServer (c : Client) (io : BackendIO) (fuel : Nat) :
    Except Str Registrations :=
  match (if c.needManualStart then io.startResult else .ok ()) with
  | .error e => .error e
  | .ok _ =>
    match io.initResult with
    | .error e => .error e
    | .ok _ =>
      match addToolsToServer c io fuel with
      | .error e => .error e
      | .ok tools =>
        let prompts := (listPages io.listPrompts (fun _ => true) fuel []).1
        let resources := (listPages io.listResources (fun _ => true) fuel []).1
        let resourceTemplates :=
          (listPages io.listResourceTemplates (fun _ => true) fuel []).1
        .ok { tools := tools, prompts := prompts, resources := resources,
              resourceTemplates := resourceTemplates, pingStarted := c.needPing }

/-- Whether an `Except` value is a success. -/
def exceptIsOk {ε α : Type} : Except ε α → Bool
  | .ok _ => true
  | .error _ => false

/-- A handler that always answers 200, used as a concrete downstream
handler in counterexamples and witnesses. -/
def okHandler : Handler :=
  fun _ => { outcome := .response 200 (gs "ok") }

/-- The route as the specification words it: `join(baseURL.Path, name)`
"normalized so that it both starts and ends with `/`" — prepend a slash
when the join does not start with one, append a slash when it does not end
with one.  Stated from the spec's words, to be compared with the source's
`mcpRoute`. -/
def specRoute (basePath name : Str) : Str :=
  let j := pathJoin [basePath, name]
  let j := if goStartsWith j (gs "/") then j else gs "/" ++ j
  if goEndsWith j (gs "/") then j else j ++ gs "/"

example : parseMCPClientConfig { command := gs "echo-mcp" } =
    .ok (.stdio ⟨gs "echo-mcp", [], []⟩) := by decide

example : parseMCPClientConfig { url := gs "http://x", transportType := gs "sse" } =
    .ok (.sse ⟨gs "http://x", []⟩) := by decide

example : parseMCPClientConfig { transportType := gs "stdio" } =
    .error (gs "command is required for stdio transport") := by decide

/-- A concrete configuration for witnesses: the proxy sets a non-empty
token list and `panicIfInvalid`; backend `a` sets no options at all;
backend `b` sets `panicIfInvalid := false` explicitly. -/
def confInherit : Config :=
  { mcpProxy := some { options := some { authTokens := some [gs "T"], panicIfInvalid := some true } },
    mcpServers := [(gs "a", {}), (gs "b", { options := some { panicIfInvalid := some false } })] }

/-- A concrete configuration for witnesses: the proxy sets a non-empty
token list while backend `b` explicitly sets `authTokens` to an empty
(present but zero-length) list. -/
def confEmptyTokens : Config :=
  { mcpProxy := some { options := some { authTokens := some [gs "P"] } },
    mcpServers := [(gs "b", { options := some { authTokens := some [] } })] }

/-! ## Shared lemmas -/

/-- `inheritClient` always produces a backend with non-nil options. -/
theorem inheritClient_options_eq (pOpts : Options) (cc : MCPClientConfig) :
    (inheritClient pOpts cc).options =
      some ((inheritClient pOpts cc).options.getD {}) := rfl

/-- The effective `authTokens` after `inheritClient`: the proxy's when the
backend's slice was nil, the backend's own otherwise. -/
theorem inheritClient_authTokens (pOpts : Options) (cc : MCPClientConfig) :
    ((inheritClient pOpts cc).options.getD {}).authTokens =
      if (cc.options.getD {}).authTokens = none then pOpts.authTokens
      else (cc.options.getD {}).authTokens := by
  simp only [inheritClient]
  by_cases h1 : (cc.options.getD {}).authTokens = none <;>
    by_cases h2 : (cc.options.getD {}).panicIfInvalid.isSome <;>
    by_cases h3 : (cc.options.getD {}).logEnabled.isSome <;>
    simp [h1, h2, h3]

/-- The effective `panicIfInvalid` after `inheritClient`: the backend's
own when present, the proxy's otherwise. -/
theorem inheritClient_panicIfInvalid (pOpts : Options) (cc : MCPClientConfig) :
    ((inheritClient pOpts cc).options.getD {}).panicIfInvalid =
      if (cc.options.getD {}).panicIfInvalid.isSome then
        (cc.options.getD {}).panicIfInvalid
      else pOpts.panicIfInvalid := by
  simp only [inheritClient]
  by_cases h1 : (cc.options.getD {}).authTokens = none <;>
    by_cases h2 : (cc.options.getD {}).panicIfInvalid.isSome <;>
    by_cases h3 : (cc.options.getD {}).logEnabled.isSome <;>
    simp [h1, h2, h3]

/-- The effective `logEnabled` after `inheritClient`: the backend's own
when present, the proxy's otherwise. -/
theorem inheritClient_logEnabled (pOpts : Options) (cc : MCPClientConfig) :
    ((inheritClient pOpts cc).options.getD {}).logEnabled =
      if (cc.options.getD {}).logEnabled.isSome then
        (cc.options.getD {}).logEnabled
      else pOpts.logEnabled := by
  simp only [inheritClient]
  by_cases h1 : (cc.options.getD {}).authTokens = none <;>
    by_cases h2 : (cc.options.getD {}).panicIfInvalid.isSome <;>
    by_cases h3 : (cc.options.getD {}).logEnabled.isSome <;>
    simp [h1, h2, h3]

/-- Every item registered by the paged listing loop passes the admission
function. -/
theorem listPages_keep {α : Type} (fetch : Str → Except Str (Page α))
    (keep : α → Bool) :
    ∀ (fuel : Nat) (cursor : Str) (t : α),
      t ∈ (listPages fetch keep fuel cursor).1 → keep t = true := by
  intro fuel
  induction fuel with
  | zero => intro cursor t ht; simp [listPages] at ht
  | succ n ih =>
    intro cursor t ht
    rw [listPages] at ht
    cases hfetch : fetch cursor with
    | error e => rw [hfetch] at ht; simp at ht
    | ok page =>
      rw [hfetch] at ht
      by_cases hempty : page.items.length = 0
      · simp [hempty] at ht
      · simp only [hempty, if_false] at ht
        by_cases hcur : page.nextCursor = []
        · simp only [hcur, if_true] at ht
          exact (List.mem_filter.mp ht).2
        · simp only [hcur, if_false] at ht
          rcases List.mem_append.mp ht with hmem | hmem
          · exact (List.mem_filter.mp hmem).2
          · exact ih page.nextCursor t hmem

/-- Every tool returned by a successful `addToolsToServer` run passes the
tool filter. -/
theorem addToolsToServer_ok (c : Client) (io : BackendIO) (fuel : Nat)
    (tools : List Tool) (h : addToolsToServer c io fuel = .ok tools) :
    ∀ t ∈ tools, toolFilterFunc c.options t.name = true := by
  intro t ht
  have hmem : t ∈ (listPages io.listTools
      (fun t => toolFilterFunc c.options t.name) fuel []).1 := by
    unfold addToolsToServer at h
    revert h
    cases hl : listPages io.listTools
        (fun t => toolFilterFunc c.options t.name) fuel [] with
    | mk regs ex => cases ex <;> intro h <;> simp_all
  exact listPages_keep io.listTools
    (fun t => toolFilterFunc c.options t.name) fuel [] t hmem

/-! ## Claims -/

/-- C2: the transport-variant resolver `parseMCPClientConfig` returns the
stdio variant if the command is non-empty or the transport type is
`stdio` (erroring in this branch exactly when the command is empty);
otherwise, with a non-empty URL, the streamable-http variant when the
transport type is `streamable-http` and the sse variant for any other
transport type; otherwise an error.  The three cases are exhaustive, so no
other outcome is possible. -/
theorem C2_transport_inference (conf : MCPClientConfig) :
    ((conf.command ≠ [] ∨ conf.transportType = MCPClientTypeStdio) →
      (conf.command = [] →
        parseMCPClientConfig conf =
          .error (gs "command is required for stdio transport")) ∧
      (conf.command ≠ [] →
        parseMCPClientConfig conf =
          .ok (.stdio ⟨conf.command, conf.env, conf.args⟩))) ∧
    (conf.command = [] → conf.transportType ≠ MCPClientTypeStdio →
      conf.url ≠ [] →
      (conf.transportType = MCPClientTypeStreamable →
        parseMCPClientConfig conf =
          .ok (.streamable ⟨conf.url, conf.headers, conf.timeout⟩)) ∧
      (conf.transportType ≠ MCPClientTypeStreamable →
        parseMCPClientConfig conf = .ok (.sse ⟨conf.url, conf.headers⟩))) ∧
    (conf.command = [] → conf.transportType ≠ MCPClientTypeStdio →
      conf.url = [] →
      parseMCPClientConfig conf = .error (gs "invalid server type")) := by
  unfold parseMCPClientConfig
  split_ifs with h1 h2 h3 h4 <;>
    refine ⟨fun hx => ⟨fun hy => ?_, fun hy => ?_⟩,
      fun ha hb hc => ⟨fun hd => ?_, fun hd => ?_⟩,
      fun ha hb hc => ?_⟩ <;>
    first | rfl | (exfalso; tauto)

/-- C2 witness: a config with only a URL and no explicit transport type
resolves to the sse variant. -/
theorem C2_witness :
    parseMCPClientConfig { url := gs "http://x" } =
      .ok (.sse ⟨gs "http://x", []⟩) :=
  ((C2_transport_inference { url := gs "http://x" }).2.1
    (by decide) (by decide) (by decide)).2 (by decide)

/-- C4: the paged listing loop (shared by tools, prompts, resources, and
resource templates) stops — registering nothing from that page — as soon
as a fetched page has an empty item list, regardless of its next cursor;
stops after registering a non-empty page whose next cursor is empty; and
otherwise continues with the next iteration requesting the page at the
returned cursor. -/
theorem C4_pagination_termination (α : Type) (fetch : Str → Except Str (Page α))
    (keep : α → Bool) (fuel : Nat) (cursor : Str) (page : Page α)
    (hfetch : fetch cursor = .ok page) :
    (page.items = [] →
      listPages fetch keep (fuel + 1) cursor = ([], .emptyPage)) ∧
    (page.items ≠ [] → page.nextCursor = [] →
      listPages fetch keep (fuel + 1) cursor =
        (page.items.filter keep, .emptyCursor)) ∧
    (page.items ≠ [] → page.nextCursor ≠ [] →
      listPages fetch keep (fuel + 1) cursor =
        (page.items.filter keep ++ (listPages fetch keep fuel page.nextCursor).1,
         (listPages fetch keep fuel page.nextCursor).2)) := by
  refine ⟨fun h1 => ?_, fun h1 h2 => ?_, fun h1 h2 => ?_⟩ <;>
    rw [listPages, hfetch] <;>
    simp_all [List.length_eq_zero]

/-- C4 witness: a first page with no items but a non-empty next cursor
still terminates the loop. -/
theorem C4_witness :
    listPages (fun _ => Except.ok ({ items := [], nextCursor := gs "more" } : Page Tool))
      (fun _ => true) 1 [] = ([], .emptyPage) :=
  (C4_pagination_termination Tool
    (fun _ => Except.ok { items := [], nextCursor := gs "more" })
    (fun _ => true) 0 [] { items := [], nextCursor := gs "more" } rfl).1 rfl

/-- C5: `addToMCPServer` succeeds exactly when the manual start (when the
transport requires one), the `Initialize` RPC, and the tools registration
all succeed; the outcomes of the prompts, resources, and resource-template
listings never affect the result. -/
theorem C5_error_propagation (c : Client) (io : BackendIO) (fuel : Nat) :
    (exceptIsOk (addToMCPServer c io fuel) = true ↔
      exceptIsOk (if c.needManualStart then io.startResult else .ok ()) = true ∧
      exceptIsOk io.initResult = true ∧
      exceptIsOk (addToolsToServer c io fuel) = true) ∧
    (∀ lp lr lrt,
      exceptIsOk (addToMCPServer c
        { io with listPrompts := lp, listResources := lr,
                  listResourceTemplates := lrt } fuel) =
      exceptIsOk (addToMCPServer c io fuel)) := by
  constructor
  · unfold addToMCPServer
    cases hs : (if c.needManualStart then io.startResult else .ok ()) <;>
      cases hi : io.initResult <;>
      cases ht : addToolsToServer c io fuel <;>
      simp [exceptIsOk, hs, hi, ht]
  · intro lp lr lrt
    have hT : addToolsToServer c
        { io with listPrompts := lp, listResources := lr,
                  listResourceTemplates := lrt } fuel =
        addToolsToServer c io fuel := rfl
    unfold addToMCPServer
    rw [hT]
    cases hs : (if c.needManualStart then io.startResult else .ok ()) <;>
      cases hi : io.initResult <;>
      cases ht : addToolsToServer c io fuel <;>
      simp [exceptIsOk, hs, hi, ht]

/-- C5 witness: a backend whose prompts listing fails but whose tools
registration succeeds still initializes successfully. -/
theorem C5_witness :
    exceptIsOk (addToMCPServer { name := gs "b" }
      { listPrompts := fun _ => .error (gs "boom"),
        listTools := fun _ => .ok { items := [⟨gs "t"⟩] } } 1) = true :=
  ((C5_error_propagation { name := gs "b" }
    { listPrompts := fun _ => .error (gs "boom"),
      listTools := fun _ => .ok { items := [⟨gs "t"⟩] } } 1).1).mpr
    ⟨by decide, by decide, by decide⟩

/-- C3: for options carrying a tool filter with a non-empty list, mode
`allow` (lowercased) accepts exactly the listed names, mode `block`
(lowercased) accepts exactly the unlisted names, and any other mode accepts
every name while the unknown mode is logged exactly once; moreover every
tool registered by `addToolsToServer` passes the filter, so rejected names
are never registered. -/
theorem C3_tool_filter (name : Str) (o : Options) (tf : ToolFilterConfig)
    (htf : o.toolFilter = some tf) (hlist : tf.list ≠ []) :
    (∀ toolName,
      (goToLower tf.mode = ToolFilterModeAllow →
        (toolFilterFunc (some o) toolName = true ↔ toolName ∈ tf.list)) ∧
      (goToLower tf.mode = ToolFilterModeBlock →
        (toolFilterFunc (some o) toolName = true ↔ toolName ∉ tf.list)) ∧
      (goToLower tf.mode ≠ ToolFilterModeAllow →
        goToLower tf.mode ≠ ToolFilterModeBlock →
        toolFilterFunc (some o) toolName = true)) ∧
    (goToLower tf.mode ≠ ToolFilterModeAllow →
      goToLower tf.mode ≠ ToolFilterModeBlock →
      (toolFilterConstructionLog name (some o)).length = 1) ∧
    (∀ (page : Page Tool) (t : Tool), t ∈ page.items →
      (t ∈ page.items.filter (fun t2 => toolFilterFunc (some o) t2.name) ↔
        toolFilterFunc (some o) t.name = true)) ∧
    (∀ (io : BackendIO) (fuel : Nat) (c : Client) (tools : List Tool),
      c.options = some o →
      addToolsToServer c io fuel = .ok tools →
      ∀ t ∈ tools, toolFilterFunc (some o) t.name = true) := by
  have hpos : 0 < tf.list.length := List.length_pos.mpr hlist
  refine ⟨fun toolName => ⟨fun hm => ?_, fun hm => ?_, fun hm1 hm2 => ?_⟩,
    fun hm1 hm2 => ?_, fun page t hmem => ?_,
    fun io fuel c tools hc hadd t htmem => ?_⟩
  · simp only [toolFilterFunc, htf]
    rw [if_pos hpos, hm, if_pos rfl]
    simp
  · have hm1 : goToLower tf.mode ≠ ToolFilterModeAllow := by
      rw [hm]; decide
    simp only [toolFilterFunc, htf]
    rw [if_pos hpos, hm, if_neg (by decide), if_pos rfl]
    simp
  · simp only [toolFilterFunc, htf]
    rw [if_pos hpos, if_neg hm1, if_neg hm2]
  · simp only [toolFilterConstructionLog, htf]
    rw [if_pos hpos, if_neg hm1, if_neg hm2]
    rfl
  · simp [List.mem_filter, hmem]
  · have := addToolsToServer_ok c io fuel tools hadd t htmem
    rwa [hc] at this

/-- C3 witness: with an `allow` filter over `["a", "c"]`, the tool name
`a` is accepted. -/
theorem C3_witness :
    toolFilterFunc
      (some { toolFilter := some { mode := gs "Allow", list := [gs "a", gs "c"] } })
      (gs "a") = true :=
  (((C3_tool_filter (gs "b")
    { toolFilter := some { mode := gs "Allow", list := [gs "a", gs "c"] } }
    { mode := gs "Allow", list := [gs "a", gs "c"] } rfl (by decide)).1
    (gs "a")).1 (by decide)).mpr (by decide)

/-- C1 counterexample: `chainMiddleware(h, m1, m2, m3)` is not
`m1(m2(m3(h)))` — with three logging middlewares the two compositions
print their request lines in opposite orders. -/
theorem C1_counterexample :
    (chainMiddleware okHandler
      [loggerMiddleware (gs "m1"), loggerMiddleware (gs "m2"),
       loggerMiddleware (gs "m3")] {} ≠
    loggerMiddleware (gs "m1")
      (loggerMiddleware (gs "m2") (loggerMiddleware (gs "m3") okHandler)) {}) ∧
    (mountedHandler (gs "b")
      { logEnabled := some true, authTokens := some [gs "S"] } okHandler {} ≠
    recoverMiddleware (gs "b")
      (loggerMiddleware (gs "b") (newAuthMiddleware [gs "S"] okHandler)) {}) := by
  decide

/-- C1 amended: `chainMiddleware(h, m1, m2, m3)` yields `m3(m2(m1(h)))` —
the LAST middleware in the list is outermost — so a mounted backend route
with logging enabled and a non-empty token list runs auth first, then
logging, with recovery innermost, wrapping the handler directly. -/
theorem C1_chain_order :
    (∀ (h : Handler) (m1 m2 m3 : Middleware),
      chainMiddleware h [m1, m2, m3] = m3 (m2 (m1 h))) ∧
    (∀ (name : Str) (options : Options) (sse : Handler),
      options.logEnabled.getD false = true →
      0 < (options.authTokens.getD []).length →
      mountedHandler name options sse =
        newAuthMiddleware (options.authTokens.getD [])
          (loggerMiddleware name (recoverMiddleware name sse))) := by
  constructor
  · intro h m1 m2 m3; rfl
  · intro name options sse hlog htok
    unfold mountedHandler buildMiddlewares chainMiddleware
    simp [hlog, htok, MiddlewareSpec.run]

/-- C1 witness: a concrete route with logging enabled and one token is the
auth middleware around the logger around recovery around the handler. -/
theorem C1_witness :
    mountedHandler (gs "b")
      { logEnabled := some true, authTokens := some [gs "S"] } okHandler =
    newAuthMiddleware [gs "S"]
      (loggerMiddleware (gs "b") (recoverMiddleware (gs "b") okHandler)) :=
  C1_chain_order.2 (gs "b")
    { logEnabled := some true, authTokens := some [gs "S"] } okHandler
    (by decide) (by decide)

/-- C6 counterexample: with token list `["Basic abc"]`, a request whose
`Authorization` header is `"Basic abc"` — a scheme other than Bearer — is
passed through to the downstream handler instead of being rejected
with 401. -/
theorem C6_counterexample :
    goStartsWith (gs "Basic abc") (gs "Bearer ") = false ∧
    newAuthMiddleware [gs "Basic abc"] okHandler
      { authorization := gs "Basic abc" } =
      okHandler { authorization := gs "Basic abc" } ∧
    okHandler { authorization := gs "Basic abc" } ≠ unauthorizedResult := by
  decide

/-- C6 amended: with a non-empty token list the auth middleware answers
401 — without invoking the downstream handler — exactly when the header
value, after stripping a `"Bearer "` prefix when present and trimming
whitespace, is empty or not in the token list; otherwise (in particular
for a header that verbatim equals a configured token, whatever its
scheme) the request is passed through, and an empty token list passes
every request through unchanged. -/
theorem C6_auth_decision (tokens : List Str) (next : Handler) (req : Request) :
    (tokens = [] → newAuthMiddleware tokens next req = next req) ∧
    (tokens ≠ [] →
      (goTrimSpace (goTrimPre req.authorization (gs "Bearer ")) = [] ∨
          goTrimSpace (goTrimPre req.authorization (gs "Bearer ")) ∉ tokens →
        newAuthMiddleware tokens next req = unauthorizedResult) ∧
      (goTrimSpace (goTrimPre req.authorization (gs "Bearer ")) ≠ [] →
        goTrimSpace (goTrimPre req.authorization (gs "Bearer ")) ∈ tokens →
        newAuthMiddleware tokens next req = next req)) := by
  constructor
  · intro h; simp [newAuthMiddleware, h]
  · intro hne
    have hlen : tokens.length ≠ 0 := by
      simpa [List.length_eq_zero] using hne
    constructor
    · intro hbad
      by_cases hemp : goTrimSpace (goTrimPre req.authorization (gs "Bearer ")) = []
      · simp [newAuthMiddleware, hlen, hemp]
      · have hnotin : goTrimSpace (goTrimPre req.authorization (gs "Bearer ")) ∉ tokens := by
          tauto
        simp [newAuthMiddleware, hlen, hemp, hnotin]
    · intro hemp hmem
      simp [newAuthMiddleware, hlen, hemp, hmem]

/-- C6 witness: with token list `["SECRET"]`, a request carrying
`Authorization: Bearer SECRET` is passed through. -/
theorem C6_witness :
    newAuthMiddleware [gs "SECRET"] okHandler
      { authorization := gs "Bearer SECRET" } =
      okHandler { authorization := gs "Bearer SECRET" } :=
  ((C6_auth_decision [gs "SECRET"] okHandler
    { authorization := gs "Bearer SECRET" }).2 (by decide)).2
    (by decide) (by decide)

/-- C7: after `load`, a backend that left `authTokens` unset (nil) carries
the proxy-level `authTokens`; a backend whose three-state `panicIfInvalid`
or `logEnabled` is unset carries the proxy-level value of that field; and
a backend that did set any of these three keeps its own value — in
particular a boolean set to `false` is not overwritten by a proxy-level
`true`. -/
theorem C7_inheritance (conf : Config) (proxy : MCPProxyConfig) (conf2 : Config)
    (hproxy : conf.mcpProxy = some proxy) (hload : load conf = .ok conf2) :
    ∀ (i : Nat) (n : Str) (cc : MCPClientConfig),
      conf.mcpServers.get? i = some (n, cc) →
      ∃ cc2 o2, conf2.mcpServers.get? i = some (n, cc2) ∧
        cc2.options = some o2 ∧
        ((cc.options.getD {}).authTokens = none →
          o2.authTokens = (proxy.options.getD {}).authTokens) ∧
        (∀ ts, (cc.options.getD {}).authTokens = some ts →
          o2.authTokens = some ts) ∧
        ((cc.options.getD {}).panicIfInvalid = none →
          o2.panicIfInvalid = (proxy.options.getD {}).panicIfInvalid) ∧
        (∀ b, (cc.options.getD {}).panicIfInvalid = some b →
          o2.panicIfInvalid = some b) ∧
        ((cc.options.getD {}).logEnabled = none →
          o2.logEnabled = (proxy.options.getD {}).logEnabled) ∧
        (∀ b, (cc.options.getD {}).logEnabled = some b →
          o2.logEnabled = some b) := by
  intro i n cc hi
  simp only [load, hproxy] at hload
  rw [Except.ok.injEq] at hload
  subst hload
  refine ⟨inheritClient (proxy.options.getD {}) cc,
    (inheritClient (proxy.options.getD {}) cc).options.getD {}, ?_,
    inheritClient_options_eq _ _, ?_, ?_, ?_, ?_, ?_, ?_⟩
  · show (conf.mcpServers.map
      fun nc => (nc.1, inheritClient (proxy.options.getD {}) nc.2)).get? i = _
    rw [List.get?_map, hi]
    rfl
  · intro h
    rw [inheritClient_authTokens, if_pos h]
  · intro ts h
    rw [inheritClient_authTokens, if_neg (by simp [h]), h]
  · intro h
    rw [inheritClient_panicIfInvalid, if_neg (by simp [h])]
  · intro b h
    rw [inheritClient_panicIfInvalid, if_pos (by simp [h]), h]
  · intro h
    rw [inheritClient_logEnabled, if_neg (by simp [h])]
  · intro b h
    rw [inheritClient_logEnabled, if_pos (by simp [h]), h]

/-- C7 witness: loading `confInherit`, backend `a` (no options) inherits
the proxy token list, and backend `b` keeps its explicit
`panicIfInvalid := false` although the proxy sets `true`. -/
theorem C7_witness :
    ∃ conf2, load confInherit = .ok conf2 ∧
      (∃ cc2 o2, conf2.mcpServers.get? 0 = some (gs "a", cc2) ∧
        cc2.options = some o2 ∧ o2.authTokens = some [gs "T"]) ∧
      (∃ cc2 o2, conf2.mcpServers.get? 1 = some (gs "b", cc2) ∧
        cc2.options = some o2 ∧ o2.panicIfInvalid = some false) := by
  refine ⟨_, rfl, ?_, ?_⟩
  · obtain ⟨cc2, o2, h1, h2, hA, _, _, _, _, _⟩ :=
      C7_inheritance confInherit _ _ rfl rfl 0 (gs "a") {} rfl
    exact ⟨cc2, o2, h1, h2, hA rfl⟩
  · obtain ⟨cc2, o2, h1, h2, _, _, _, hP, _, _⟩ :=
      C7_inheritance confInherit _ _ rfl rfl 1 (gs "b")
        { options := some { panicIfInvalid := some false } } rfl
    exact ⟨cc2, o2, h1, h2, hP false rfl⟩

/-- C10: whenever `load` succeeds, the proxy options pointer and every
backend's options pointer are non-nil, so the unguarded
`Options.LogEnabled` and `Options.PanicIfInvalid` dereferences performed
later by `newMCPServer` and `startHTTPServer` succeed. -/
theorem C10_options_non_nil (conf conf2 : Config)
    (hload : load conf = .ok conf2) :
    (∃ proxy, conf2.mcpProxy = some proxy ∧ proxy.options.isSome = true) ∧
    ∀ n cc, (n, cc) ∈ conf2.mcpServers →
      cc.options.isSome = true ∧
      (readLogEnabled cc).isSome = true ∧
      (readPanicIfInvalid cc).isSome = true := by
  cases hp : conf.mcpProxy with
  | none => rw [load, hp] at hload; exact absurd hload (by simp)
  | some proxy =>
    simp only [load, hp] at hload
    rw [Except.ok.injEq] at hload
    subst hload
    constructor
    · exact ⟨_, rfl, rfl⟩
    · intro n cc hmem
      simp only [List.mem_map] at hmem
      obtain ⟨nc, hnc, heq⟩ := hmem
      have hcc : cc = inheritClient (proxy.options.getD {}) nc.2 := by
        cases heq; rfl
      subst hcc
      have hopt := inheritClient_options_eq (proxy.options.getD {}) nc.2
      exact ⟨by rw [hopt]; rfl,
        by rw [readLogEnabled, hopt]; rfl,
        by rw [readPanicIfInvalid, hopt]; rfl⟩

/-- C10 witness: loading `confInherit` succeeds and yields non-nil options
everywhere; in particular the dereferenced reads succeed on backend `a`. -/
theorem C10_witness :
    ∃ conf2, load confInherit = .ok conf2 ∧
      (∃ proxy, conf2.mcpProxy = some proxy ∧ proxy.options.isSome = true) ∧
      ∀ n cc, (n, cc) ∈ conf2.mcpServers → cc.options.isSome = true := by
  obtain ⟨h1, h2⟩ := C10_options_non_nil confInherit _ rfl
  exact ⟨_, rfl, h1, fun n cc h => (h2 n cc h).1⟩

/-- The Go-string `"/"` is the singleton slash list. -/
theorem gs_slash : gs "/" = ['/'] := by decide

/-- Appending anything to a string that starts with `/` keeps the leading
slash. -/
theorem startsWith_slash_append (s t : Str)
    (h : goStartsWith s (gs "/") = true) :
    goStartsWith (s ++ t) (gs "/") = true := by
  rw [gs_slash] at h ⊢
  cases s with
  | nil => simp [goStartsWith] at h
  | cons c cs =>
    simp [goStartsWith] at h ⊢
    exact h

/-- A string with a slash appended ends with `/`. -/
theorem endsWith_slash_append (s : Str) :
    goEndsWith (s ++ gs "/") (gs "/") = true := by
  unfold goEndsWith
  rw [gs_slash, List.reverse_append]
  simp [goStartsWith]

/-- C8: the mounted route equals `path.Join(baseURL.Path, name)` normalized
as the spec words it, and for every base path (the empty one included) and
every name it both starts and ends with `/`. -/
theorem C8_route_normalized (basePath name : Str) :
    mcpRoute basePath name = specRoute basePath name ∧
    goStartsWith (mcpRoute basePath name) (gs "/") = true ∧
    goEndsWith (mcpRoute basePath name) (gs "/") = true := by
  refine ⟨rfl, ?_, ?_⟩
  · simp only [mcpRoute]
    by_cases h1 : goStartsWith (pathJoin [basePath, name]) (gs "/") = true
    · rw [if_pos h1]
      by_cases h2 : goEndsWith (pathJoin [basePath, name]) (gs "/") = true
      · rw [if_pos h2]; exact h1
      · rw [if_neg h2]; exact startsWith_slash_append _ _ h1
    · rw [if_neg h1]
      have hs : goStartsWith (gs "/" ++ pathJoin [basePath, name]) (gs "/") = true := by
        rw [gs_slash]
        simp [goStartsWith]
      by_cases h2 : goEndsWith (gs "/" ++ pathJoin [basePath, name]) (gs "/") = true
      · rw [if_pos h2]; exact hs
      · rw [if_neg h2]; exact startsWith_slash_append _ _ hs
  · simp only [mcpRoute]
    by_cases h1 : goStartsWith (pathJoin [basePath, name]) (gs "/") = true
    · rw [if_pos h1]
      by_cases h2 : goEndsWith (pathJoin [basePath, name]) (gs "/") = true
      · rw [if_pos h2]; exact h2
      · rw [if_neg h2]; exact endsWith_slash_append _
    · rw [if_neg h1]
      by_cases h2 : goEndsWith (gs "/" ++ pathJoin [basePath, name]) (gs "/") = true
      · rw [if_pos h2]; exact h2
      · rw [if_neg h2]; exact endsWith_slash_append _

/-- C9: a backend that explicitly sets `authTokens` to an empty (present
but zero-length) list does not inherit the proxy tokens — the loader only
propagates them when the field is nil — so no auth middleware is built for
its route and every request reaches the backend handler unauthenticated,
whatever the proxy-level token list is. -/
theorem C9_explicit_empty_tokens (conf : Config) (proxy : MCPProxyConfig)
    (conf2 : Config) (i : Nat) (n : Str) (cc : MCPClientConfig) (o : Options)
    (hproxy : conf.mcpProxy = some proxy) (hload : load conf = .ok conf2)
    (hi : conf.mcpServers.get? i = some (n, cc))
    (hopts : cc.options = some o) (htok : o.authTokens = some []) :
    ∃ cc2 o2, conf2.mcpServers.get? i = some (n, cc2) ∧
      cc2.options = some o2 ∧ o2.authTokens = some [] ∧
      (∀ ts, MiddlewareSpec.auth ts ∉ buildMiddlewares n o2) ∧
      (∀ (sse : Handler) (req : Request) (s : Nat) (b : Str),
        (sse req).outcome = .response s b →
        (mountedHandler n o2 sse req).outcome = .response s b) := by
  simp only [load, hproxy] at hload
  rw [Except.ok.injEq] at hload
  subst hload
  have hat : (cc.options.getD {}).authTokens = some [] := by
    simp [hopts, htok]
  have hA : ((inheritClient (proxy.options.getD {}) cc).options.getD {}).authTokens =
      some [] := by
    rw [inheritClient_authTokens, if_neg (by simp [hat]), hat]
  refine ⟨_, _, ?_, inheritClient_options_eq _ _, hA, ?_, ?_⟩
  · show (conf.mcpServers.map
      fun nc => (nc.1, inheritClient (proxy.options.getD {}) nc.2)).get? i = _
    rw [List.get?_map, hi]
    rfl
  · intro ts
    by_cases hl : ((inheritClient (proxy.options.getD {}) cc).options.getD
        {}).logEnabled.getD false = true <;>
      simp [buildMiddlewares, hA, hl]
  · intro sse req s b hsse
    unfold mountedHandler chainMiddleware
    by_cases hl : ((inheritClient (proxy.options.getD {}) cc).options.getD
        {}).logEnabled.getD false = true <;>
      simp [buildMiddlewares, hA, hl, MiddlewareSpec.run, recoverMiddleware,
        loggerMiddleware, hsse]

/-- C9 witness: loading `confEmptyTokens`, backend `b` keeps its explicit
empty token list and its route's middleware list contains no auth
middleware, although the proxy sets a non-empty token list. -/
theorem C9_witness :
    ∃ conf2, load confEmptyTokens = .ok conf2 ∧
      ∃ cc2 o2, conf2.mcpServers.get? 0 = some (gs "b", cc2) ∧
        cc2.options = some o2 ∧ o2.authTokens = some [] ∧
        ∀ ts, MiddlewareSpec.auth ts ∉ buildMiddlewares (gs "b") o2 := by
  obtain ⟨cc2, o2, h1, h2, h3, h4, _⟩ :=
    C9_explicit_empty_tokens confEmptyTokens _ _ 0 (gs "b") _ _
      rfl rfl rfl rfl rfl
  exact ⟨_, rfl, cc2, o2, h1, h2, h3, h4⟩

end MCPProxy
